import Mathlib

/-!
Verification of the NEAT-style genome/evolution engine of the Creatures
repository (`simulation.py`, `dna.py`, `node.py`), as a shallow embedding.

Python dictionaries `{key: value}` are embedded as association lists
`List (Nat × α)` with first-match lookup and replace-or-append insertion
(Python dicts have unique keys, preserve insertion order, and replace in
place on re-assignment).  Python floats are embedded as `ℚ`; the float NaN
produced by `numpy.average([])` is embedded as `none` in `Option ℚ`.
Python truthiness of an optional integer (`None` and `0` are falsy) is
embedded by `pyTruthy`.
-/

/-- Python truthiness of an optional integer: `None` and `0` are falsy,
every other integer is truthy. -/
def pyTruthy : Option Nat → Bool
  | none => false
  | some n => n != 0

/-- Python `x or y` on optional integers: returns `x` if `x` is truthy,
otherwise `y`. -/
def pyOr (x y : Option Nat) : Option Nat :=
  if pyTruthy x then x else y

/-- `numpy.average` over a list: the arithmetic mean, and NaN (embedded as
`none`) on the empty list. -/
def pyAverage (l : List ℚ) : Option ℚ :=
  if l.isEmpty then none else some (l.sum / (l.length : ℚ))

/-- Lookup in a Python dict embedded as an association list: the value at
the first (unique, in a real dict) occurrence of the key. -/
def dictGet : List (Nat × α) → Nat → Option α
  | [], _ => none
  | p :: rest, k => if p.1 = k then some p.2 else dictGet rest k

/-- Python dict assignment `d[k] = v`: replace the value at `k` in place if
the key is present, otherwise append the new binding. -/
def dinsert : List (Nat × α) → Nat → α → List (Nat × α)
  | [], k, v => [(k, v)]
  | p :: rest, k, v => if p.1 = k then (k, v) :: rest else p :: dinsert rest k v

/-- Python `max` over a list of naturals (total; callers guard emptiness,
since Python `max` raises `ValueError` on an empty sequence). -/
def natListMax : List Nat → Nat
  | [] => 0
  | x :: xs => max x (natListMax xs)

/-- Modelled from the spec: `connection.py` is not under `src/`.  A
connection gene as described in §3 of the spec and as used by
`simulation.py`: innovation `number`, endpoint node ids `src_number` and
`dst_number`, a real `weight` and an enabled flag. -/
structure Connection where
  number : Nat
  src_number : Nat
  dst_number : Nat
  weight : ℚ
  enabled : Bool
deriving DecidableEq

/-- Modelled from the spec: `node.py` classes as stored in a genome's node
dict (`InputNode`, `HiddenNode`, `OutputNode`), reduced to the structural
data a genome carries: kind, id and bias. -/
inductive PyNode where
  | input (number : Nat)
  | hidden (number : Nat) (bias : ℚ)
  | output (number : Nat) (bias : ℚ)
deriving DecidableEq

def defaultConnection : Connection := ⟨0, 0, 0, 0, true⟩

def defaultNode : PyNode := .input 0

/-- A genome (`dna.py`, class `Dna`): the fields set by `Dna.__init__`.
`inputs`/`outputs` are `Option Nat` because the Python attributes can be
`None` (the constructor parameters default to `None`). -/
structure Dna where
  inputs : Option Nat
  outputs : Option Nat
  nodes : List (Nat × PyNode)
  connections : List (Nat × Connection)
deriving DecidableEq

/-- In `Dna.__init__` line 24, `[node for node in nodes if
isinstance(node, InputNode)]` iterates the nodes DICT, which yields its
integer KEYS; `isinstance(k, InputNode)` is false for every integer. -/
def isinstanceIntInputNode (_ : Nat) : Bool := false

/-- Same as `isinstanceIntInputNode` for the `OutputNode` count at
`Dna.__init__` line 26. -/
def isinstanceIntOutputNode (_ : Nat) : Bool := false

/-- `Dna.__init__` on the explicit-maps path (the one used by
`Simulation.crossover`): both node and connection dicts supplied, the
`inputs`/`outputs` parameters left at their `None` default by crossover.
The stored counts are computed from the dict's keys when the nodes dict is
truthy (non-empty), else taken from the parameters. -/
def dnaInit (inputs outputs : Option Nat) (nodes : List (Nat × PyNode))
    (connections : List (Nat × Connection)) : Dna :=
  { inputs := if !nodes.isEmpty
      then some (((nodes.map Prod.fst).filter isinstanceIntInputNode).length)
      else inputs
    outputs := if !nodes.isEmpty
      then some (((nodes.map Prod.fst).filter isinstanceIntOutputNode).length)
      else outputs
    nodes := nodes
    connections := connections }

/-- Modelled from the spec: `creature.py` is not under `src/`.  The two
attributes of a creature that `Simulation.compare_genomes`,
`Simulation.crossover` and `Simulation.new_generation` read: its genome
and its fitness. -/
structure Creature where
  dna : Dna
  fitness : ℚ
deriving DecidableEq

/-! ## node.py: InputNode -/

/-- `node.py`, class `InputNode`: transient `inputs`/`output` state,
`None` (here `none`) when unset. -/
structure InputNode where
  number : Nat
  inputs : Option ℚ
  output : Option ℚ
deriving DecidableEq

/-- `InputNode.__init__`: `self.output = self.inputs = None`. -/
def mkInputNode (number : Nat) : InputNode := ⟨number, none, none⟩

/-- `InputNode.get_output`: returns `self.output` as is (the `None` of an
unset input is the spec's Unset-Input condition). -/
def InputNode.get_output (n : InputNode) : Option ℚ := n.output

/-- `InputNode.set_input`: `self.inputs = self.output = input_value if
self.inputs is None else self.inputs` — the supplied value is stored only
if no input has been set since the last reset. -/
def InputNode.set_input (n : InputNode) (input_value : ℚ) : InputNode :=
  let rhs := if n.inputs = none then some input_value else n.inputs
  { n with inputs := rhs, output := rhs }

/-- `InputNode.reset_node`: `self.inputs = self.output = None`. -/
def InputNode.reset_node (n : InputNode) : InputNode :=
  { n with inputs := none, output := none }

/-! ## simulation.py: the innovation ledger (generate_mutations) -/

/-- Modelled from the spec: `mutations.py` is not under `src/`.  The
identity key (`Innovation.unique()`) of a structural mutation per §4.3 of
the spec: the `(src, dst)` pair for a connection mutation, the split
connection's innovation number for a node mutation. -/
inductive InnovKey where
  | conn (src dst : Nat)
  | nodeSplit (number : Nat)
deriving DecidableEq

/-- An entry of `Simulation.innovation_history`: a resolved innovation,
its key together with its assigned numbers (`configurations()`): one fresh
innovation number for a connection mutation; two fresh innovation numbers
followed by the new node id for a node-split mutation. -/
structure LedgerEntry where
  key : InnovKey
  assigned : List Nat
deriving DecidableEq

/-- The ledger state owned by `Simulation`: `innovation_history`,
`connection_count`, `node_count`. -/
structure LedgerState where
  history : List LedgerEntry
  connection_count : Nat
  node_count : Nat
deriving DecidableEq

/-- Modelled from the spec: `Innovation.calc_configurations` of the
missing `mutations.py`, per §4.3 of the spec — mint fresh innovation
number(s) (and, for node splits, a fresh node id) by incrementing the
global connection/node counters. -/
def calcConfigurations (k : InnovKey) (cc nc : Nat) : List Nat × Nat × Nat :=
  match k with
  | .conn _ _ => ([cc], cc + 1, nc)
  | .nodeSplit _ => ([cc, cc + 1, nc], cc + 2, nc + 1)

/-- `Simulation.generate_mutations` lines 274-284: scan the innovation
history for a past innovation with the same identity key; if found, reuse
its assignment; otherwise mint a fresh assignment from the global counters
and append the new innovation to the history. -/
def resolveInnovation (st : LedgerState) (k : InnovKey) :
    List Nat × LedgerState :=
  match st.history.find? (fun past => past.key == k) with
  | some past => (past.assigned, st)
  | none =>
    let minted := calcConfigurations k st.connection_count st.node_count
    (minted.1, ⟨st.history ++ [⟨k, minted.1⟩], minted.2.1, minted.2.2⟩)

/-! ## simulation.py: new_generation, elitism fragment (lines 570-577) -/

/-- Python `max(species, key=lambda c: c.fitness)`: first creature of
maximal fitness, `none` on an empty list (where Python raises). -/
def pyMaxByFitness : List Creature → Option Creature
  | [] => none
  | x :: xs => some (xs.foldl (fun best c => if best.fitness < c.fitness then c else best) x)

/-- `Simulation.new_generation` lines 572-577, verbatim structure: the
next-generation species list `new_species` starts empty, and the elitism
guard reads `len(new_species)` — the length of that just-initialized empty
list — not the size of the current species. -/
def elitismStep (bigSpecies : Nat) (species : List Creature) : List Creature :=
  let new_species : List Creature := []
  if new_species.length > bigSpecies then
    match pyMaxByFitness species with
    | some champion => new_species ++ [champion]
    | none => new_species
  else
    new_species

/-! ## simulation.py: compare_genomes (lines 421-459) and
genetic_distance (lines 461-475) -/

/-- Well-formedness of a genome's connection dict as the program builds
it: every connection is stored under its own innovation number
(`{connection.number: connection}` in `dna.py` and in `crossover`). -/
def Dna.wf (d : Dna) : Prop := ∀ p ∈ d.connections, p.1 = p.2.number

/-- Highest innovation number of a genome
(`max(connections.keys())` at lines 431-432). -/
def dnaMaxInnov (d : Dna) : Nat := natListMax (d.connections.map Prod.fst)

/-- One entry of the `a_compare`/`b_compare` alignment vectors (lines
444-445): `None if num not in connections else connections[num].number`. -/
def geneNum (d : Dna) (num : Nat) : Option Nat :=
  (dictGet d.connections num).map Connection.number

/-- `num in connections`: the genome carries a gene under key `num`. -/
def hasConn (d : Dna) (num : Nat) : Bool := (dictGet d.connections num).isSome

/-- The matching-gene test at line 449: `a_num == b_num and a_num`
(Python truthiness: an innovation number 0 fails this test even when
present in both genomes). -/
def matchGeneCond (x y : Option Nat) : Bool := x == y && pyTruthy x

/-- The disjoint-gene test at line 453:
`(a_num or b_num) and (a_num or b_num) < cutoff`. -/
def disjointTest (x y : Option Nat) (cutoff : Nat) : Bool :=
  pyTruthy (pyOr x y) && decide ((pyOr x y).getD 0 < cutoff)

/-- `max_number` at line 436. -/
def cmpMaxNumber (a b : Dna) : Nat := max (dnaMaxInnov a) (dnaMaxInnov b)

/-- `cutoff` at line 435. -/
def cmpCutoff (a b : Dna) : Nat := min (dnaMaxInnov a) (dnaMaxInnov b)

/-- The `matching_genes` list built by the loop at lines 446-458: for each
`num` in `0..max_number`, append `a_num` when the matching test holds. -/
def matchingGenes (a b : Dna) : List Nat :=
  (List.range (cmpMaxNumber a b + 1)).filterMap fun num =>
    if matchGeneCond (geneNum a num) (geneNum b num)
    then some ((geneNum a num).getD 0) else none

/-- The `disjoint_genes` list of the same loop: `elif` branch at line 453,
appending `a_num or b_num`. -/
def disjointGenes (a b : Dna) : List Nat :=
  (List.range (cmpMaxNumber a b + 1)).filterMap fun num =>
    if !matchGeneCond (geneNum a num) (geneNum b num)
        && disjointTest (geneNum a num) (geneNum b num) (cmpCutoff a b)
    then some ((pyOr (geneNum a num) (geneNum b num)).getD 0) else none

/-- The `excess_genes` list of the same loop: `elif` branch at line 457,
appending `a_num or b_num`. -/
def excessGenes (a b : Dna) : List Nat :=
  (List.range (cmpMaxNumber a b + 1)).filterMap fun num =>
    if !matchGeneCond (geneNum a num) (geneNum b num)
        && !disjointTest (geneNum a num) (geneNum b num) (cmpCutoff a b)
        && pyTruthy (pyOr (geneNum a num) (geneNum b num))
    then some ((pyOr (geneNum a num) (geneNum b num)).getD 0) else none

/-- Result tuple of `Simulation.compare_genomes` (minus the two parent
connection dicts, which callers already hold). -/
structure CompareResult where
  matching : List Nat
  disjoint : List Nat
  excess : List Nat
  maxNumber : Nat
deriving DecidableEq

/-- `Simulation.compare_genomes`.  `max()` on an empty connection dict
raises `ValueError` (the spec's Empty-Genome condition), embedded as
`none`. -/
def compareGenomes (a b : Dna) : Option CompareResult :=
  if a.connections.isEmpty || b.connections.isEmpty then none
  else some ⟨matchingGenes a b, disjointGenes a b, excessGenes a b, cmpMaxNumber a b⟩

/-- `connections[number].weight` as read at line 471.  For the matching
genes of well-formed genomes the lookup always succeeds; `getD 0`
totalizes the `KeyError` of a failed lookup. -/
def connWeightAt (d : Dna) (number : Nat) : ℚ :=
  ((dictGet d.connections number).map Connection.weight).getD 0

/-- `Simulation.genetic_distance` (lines 461-475), with the configured
coefficients `EXCESS_CONSTANT`, `DISJOINT_CONSTANT`,
`DELTA_WEIGHT_CONSTANT` passed as `c1 c2 c3`.  The outer `Option` is the
Empty-Genome failure propagated from `compare_genomes`; the inner `Option`
is the float value, `none` being the NaN that `numpy.average([])` yields
when there is no matching gene. -/
def geneticDistance (c1 c2 c3 : ℚ) (a b : Dna) : Option (Option ℚ) :=
  (compareGenomes a b).map fun r =>
    (pyAverage (r.matching.map fun number =>
      |connWeightAt a number - connWeightAt b number|)).map fun dw =>
      c1 * (r.excess.length : ℚ) / (r.maxNumber : ℚ)
        + c2 * (r.disjoint.length : ℚ) / (r.maxNumber : ℚ)
        + c3 * dw

/-! ## Claims C1, C7, C9, C10 -/

/-- C1: Innovation resolution is idempotent: resolving a structural
proposal and then resolving a second proposal with the same identity key
against the resulting ledger yields the same assigned numbers (for node
splits, including the same new node id, the last entry of the assignment)
and leaves the ledger unchanged; and a proposal whose key is not in the
ledger mints fresh numbers from the global connection/node counters and is
appended to the ledger. -/
theorem innovation_resolution_idempotent (st : LedgerState) (k : InnovKey) :
    (resolveInnovation (resolveInnovation st k).2 k).1 = (resolveInnovation st k).1
    ∧ (resolveInnovation (resolveInnovation st k).2 k).2 = (resolveInnovation st k).2
    ∧ (st.history.find? (fun past => past.key == k) = none →
        resolveInnovation st k =
          ((calcConfigurations k st.connection_count st.node_count).1,
            ⟨st.history ++ [⟨k, (calcConfigurations k st.connection_count st.node_count).1⟩],
              (calcConfigurations k st.connection_count st.node_count).2.1,
              (calcConfigurations k st.connection_count st.node_count).2.2⟩)) := by
  cases h : st.history.find? (fun past => past.key == k) with
  | some past =>
    refine ⟨?_, ?_, ?_⟩ <;> simp [resolveInnovation, h]
  | none =>
    have hfind : ((st.history ++ [(⟨k, (calcConfigurations k st.connection_count st.node_count).1⟩ : LedgerEntry)]).find?
        (fun past => past.key == k)) =
        some ⟨k, (calcConfigurations k st.connection_count st.node_count).1⟩ := by
      rw [List.find?_append, h]
      simp
    refine ⟨?_, ?_, fun _ => ?_⟩ <;>
      simp [resolveInnovation, h, hfind]

/-- C1 witness: resolving a node-split proposal against an empty ledger
with connection counter 5 and node counter 7 mints innovation numbers 5
and 6 and node id 7, increments the counters to 7 and 8, and appends the
entry; a second resolution of the same key reuses the same assignment. -/
theorem innovation_resolution_idempotent_witness :
    resolveInnovation ⟨[], 5, 7⟩ (InnovKey.nodeSplit 3) =
      ([5, 6, 7], ⟨[⟨InnovKey.nodeSplit 3, [5, 6, 7]⟩], 7, 8⟩)
    ∧ (resolveInnovation (resolveInnovation ⟨[], 5, 7⟩ (InnovKey.nodeSplit 3)).2
        (InnovKey.nodeSplit 3)).1 = [5, 6, 7] := by
  have h := innovation_resolution_idempotent ⟨[], 5, 7⟩ (InnovKey.nodeSplit 3)
  have h3 := h.2.2 rfl
  refine ⟨by simpa [calcConfigurations] using h3, ?_⟩
  rw [h.1, h3]
  rfl

/-- C7: falsified (code bug).  The elitism fragment of
`Simulation.new_generation` tests `len(new_species) > BIG_SPECIES` on the
list it just initialized to `[]`, instead of the current species, so for
EVERY size threshold and EVERY species — in particular any species larger
than the threshold — no champion is ever preserved: the fragment always
produces the empty list. -/
theorem elitism_never_preserves_champion (bigSpecies : Nat) (species : List Creature) :
    elitismStep bigSpecies species = [] := by
  simp [elitismStep]

/-- C9: evaluating an input node that has not been set since the last
reset yields `none` (the Unset-Input condition), and evaluating after the
input has been set returns exactly the externally supplied value; a
freshly constructed input node is likewise unset. -/
theorem input_node_unset_and_set (n : InputNode) (number : Nat) (v : ℚ) :
    (mkInputNode number).get_output = none
    ∧ n.reset_node.get_output = none
    ∧ (n.reset_node.set_input v).get_output = some v := by
  refine ⟨rfl, rfl, ?_⟩
  simp [InputNode.reset_node, InputNode.set_input, InputNode.get_output]

/-- C10: on the explicit-nodes construction path (the one used by
crossover), `Dna.__init__` computes the stored `inputs`/`outputs` counts
by filtering the node dict's integer keys with `isinstance(·, InputNode)`
/ `isinstance(·, OutputNode)`, which no integer satisfies — so both counts
are 0 whenever a non-empty nodes mapping is supplied, regardless of the
nodes it contains. -/
theorem dna_init_counts_zero (inputs outputs : Option Nat)
    (nodes : List (Nat × PyNode)) (connections : List (Nat × Connection))
    (h : nodes ≠ []) :
    (dnaInit inputs outputs nodes connections).inputs = some 0
    ∧ (dnaInit inputs outputs nodes connections).outputs = some 0 := by
  have hne : nodes.isEmpty = false := by
    cases nodes with
    | nil => exact absurd rfl h
    | cons p rest => rfl
  constructor <;>
    simp [dnaInit, hne, isinstanceIntInputNode, isinstanceIntOutputNode,
      List.filter_eq_nil_iff]

/-- C10 witness: a one-node mapping containing an actual `InputNode`
instance and an actual `OutputNode` instance still yields stored counts
of 0. -/
theorem dna_init_counts_zero_witness :
    (dnaInit none none [(1, PyNode.input 1), (2, PyNode.output 2 0)] []).inputs = some 0
    ∧ (dnaInit none none [(1, PyNode.input 1), (2, PyNode.output 2 0)] []).outputs = some 0 :=
  dna_init_counts_zero none none [(1, PyNode.input 1), (2, PyNode.output 2 0)] []
    (by decide)

/-! ## Claims C8, C2 (counterexample), C3 -/

/-- C8: genetic distance fails with the Empty-Genome condition (the
`ValueError` of `max()` over an empty connection dict, propagated from
`compare_genomes`) if and only if at least one of the two genomes has zero
connections. -/
theorem genetic_distance_empty_genome (c1 c2 c3 : ℚ) (a b : Dna) :
    geneticDistance c1 c2 c3 a b = none
      ↔ (a.connections = [] ∨ b.connections = []) := by
  rw [geneticDistance, Option.map_eq_none']
  unfold compareGenomes
  split
  next hcond =>
    simp only [Bool.or_eq_true, List.isEmpty_iff] at hcond
    simp [hcond]
  next hcond =>
    simp only [Bool.or_eq_true, List.isEmpty_iff] at hcond
    simp [hcond]

/-- A genome whose single connection carries innovation number 0. -/
def dnaZero : Dna := ⟨none, none, [], [(0, ⟨0, 0, 1, 1, true⟩)]⟩

/-- C2 counterexample: both genomes have at least one connection and the
gene with innovation number 0 is present in both, yet `compare_genomes`
places it in NONE of the three classes (the Python test
`a_num == b_num and a_num` is falsy for the integer 0), so the claimed
classification — present in both ⇒ matching, and every present gene in
exactly one class — fails at this input. -/
theorem gene_zero_in_no_class :
    hasConn dnaZero 0 = true
    ∧ compareGenomes dnaZero dnaZero = some ⟨[], [], [], 0⟩ := by
  decide

/-- A genome whose single connection carries innovation number 1. -/
def dnaOne : Dna := ⟨none, none, [], [(1, ⟨1, 0, 1, 1, true⟩)]⟩

/-- A genome whose single connection carries innovation number 2. -/
def dnaTwo : Dna := ⟨none, none, [], [(2, ⟨2, 0, 1, 1, true⟩)]⟩

/-- C3 counterexample: two genomes with one connection each and no
matching gene.  `numpy.average` over the empty weight-delta list is NaN
(embedded as the inner `none`), and `genetic_distance` returns it
unguarded — the weight-delta term is NOT treated as maximal dissimilarity,
the whole distance is undefined. -/
theorem no_matching_genes_distance_nan :
    matchingGenes dnaOne dnaTwo = []
    ∧ geneticDistance 1 1 1 dnaOne dnaTwo = some none := by
  decide

/-- C3 (amended): when `compare_genomes` succeeds and there is at least
one matching gene, the genetic distance is the defined value
`c1·|excess|/N + c2·|disjoint|/N + c3·meanAbsWeightDelta(matching)` with
`N = max_number` and the mean taken over the matching genes' absolute
weight differences; with no matching genes the result is NaN (the inner
`none`), not a guarded maximal value. -/
theorem genetic_distance_formula (c1 c2 c3 : ℚ) (a b : Dna) (r : CompareResult)
    (hr : compareGenomes a b = some r) (hm : r.matching ≠ []) :
    geneticDistance c1 c2 c3 a b =
      some (some
        (c1 * (r.excess.length : ℚ) / (r.maxNumber : ℚ)
          + c2 * (r.disjoint.length : ℚ) / (r.maxNumber : ℚ)
          + c3 * ((r.matching.map fun number =>
              |connWeightAt a number - connWeightAt b number|).sum
              / (r.matching.length : ℚ)))) := by
  have hne : ((r.matching.map fun number =>
      |connWeightAt a number - connWeightAt b number|).isEmpty) = false := by
    cases hm' : r.matching with
    | nil => exact absurd hm' hm
    | cons x xs => simp [hm']
  rw [geneticDistance, hr, Option.map, pyAverage, hne]
  simp [List.length_map]

/-- C3 amended witness: a genome compared against itself, one matching
gene of weight 1, distance `c1·0/1 + c2·0/1 + c3·(0/1) = 0`. -/
theorem genetic_distance_formula_witness :
    geneticDistance 1 1 1 dnaOne dnaOne =
      some (some
        (1 * ((0 : Nat) : ℚ) / ((1 : Nat) : ℚ)
          + 1 * ((0 : Nat) : ℚ) / ((1 : Nat) : ℚ)
          + 1 * (([(|connWeightAt dnaOne 1 - connWeightAt dnaOne 1|)].sum)
              / ((1 : Nat) : ℚ)))) := by
  have h := genetic_distance_formula 1 1 1 dnaOne dnaOne ⟨[1], [], [], 1⟩
    (by decide) (by decide)
  simpa using h

/-! ## Dictionary and well-formedness lemmas -/

theorem mem_of_dictGet (l : List (Nat × α)) (n : Nat) (v : α)
    (h : dictGet l n = some v) : (n, v) ∈ l := by
  induction l with
  | nil => simp [dictGet] at h
  | cons p rest ih =>
    rw [dictGet] at h
    by_cases hp : p.1 = n
    · rw [if_pos hp] at h
      obtain ⟨pk, pv⟩ := p
      obtain rfl : pv = v := by injection h
      obtain rfl : pk = n := hp
      exact List.mem_cons_self _ _
    · rw [if_neg hp] at h
      exact List.mem_cons_of_mem p (ih h)

theorem le_natListMax (l : List Nat) (x : Nat) (h : x ∈ l) : x ≤ natListMax l := by
  induction l with
  | nil => simp at h
  | cons y ys ih =>
    rw [natListMax]
    rcases List.mem_cons.mp h with h1 | h2
    · exact h1 ▸ Nat.le_max_left _ _
    · exact le_trans (ih h2) (Nat.le_max_right _ _)

theorem hasConn_le_max (d : Dna) (n : Nat) (h : hasConn d n = true) :
    n ≤ dnaMaxInnov d := by
  rw [hasConn, Option.isSome_iff_exists] at h
  obtain ⟨c, hc⟩ := h
  exact le_natListMax _ _ (List.mem_map_of_mem Prod.fst (mem_of_dictGet _ _ _ hc))

theorem hasConn_pos (d : Dna) (hk : ∀ p ∈ d.connections, 1 ≤ p.1) (n : Nat)
    (h : hasConn d n = true) : n ≠ 0 := by
  rw [hasConn, Option.isSome_iff_exists] at h
  obtain ⟨c, hc⟩ := h
  have := hk _ (mem_of_dictGet _ _ _ hc)
  omega

/-- Under well-formedness, each alignment entry is the innovation number
itself when the gene is present and `None` otherwise. -/
theorem geneNum_wf (d : Dna) (hw : d.wf) (n : Nat) :
    geneNum d n = if hasConn d n = true then some n else none := by
  unfold geneNum hasConn
  cases h : dictGet d.connections n with
  | none => simp
  | some c =>
    have hnum : n = c.number := hw _ (mem_of_dictGet _ _ _ h)
    simp [hnum]

/-! ## Branch values of the comparison loop under well-formedness -/

theorem match_branch (a b : Dna) (hwa : a.wf) (hwb : b.wf) (m : Nat) :
    (if matchGeneCond (geneNum a m) (geneNum b m)
      then some ((geneNum a m).getD 0) else none)
      = if m ≠ 0 ∧ hasConn a m = true ∧ hasConn b m = true then some m else none := by
  rw [geneNum_wf a hwa, geneNum_wf b hwb]
  by_cases ha : hasConn a m = true <;> by_cases hb : hasConn b m = true <;>
    by_cases h0 : m = 0 <;>
      simp_all [matchGeneCond, pyTruthy]

theorem disjoint_branch (a b : Dna) (hwa : a.wf) (hwb : b.wf) (m : Nat) :
    (if !matchGeneCond (geneNum a m) (geneNum b m)
        && disjointTest (geneNum a m) (geneNum b m) (cmpCutoff a b)
      then some ((pyOr (geneNum a m) (geneNum b m)).getD 0) else none)
      = if m ≠ 0 ∧ hasConn a m ≠ hasConn b m ∧ m < cmpCutoff a b
        then some m else none := by
  rw [geneNum_wf a hwa, geneNum_wf b hwb]
  by_cases ha : hasConn a m = true <;> by_cases hb : hasConn b m = true <;>
    by_cases h0 : m = 0 <;> by_cases hc : m < cmpCutoff a b <;>
      simp_all [matchGeneCond, disjointTest, pyOr, pyTruthy]

theorem excess_branch (a b : Dna) (hwa : a.wf) (hwb : b.wf) (m : Nat) :
    (if !matchGeneCond (geneNum a m) (geneNum b m)
        && !disjointTest (geneNum a m) (geneNum b m) (cmpCutoff a b)
        && pyTruthy (pyOr (geneNum a m) (geneNum b m))
      then some ((pyOr (geneNum a m) (geneNum b m)).getD 0) else none)
      = if m ≠ 0 ∧ hasConn a m ≠ hasConn b m ∧ cmpCutoff a b ≤ m
        then some m else none := by
  rw [geneNum_wf a hwa, geneNum_wf b hwb]
  by_cases ha : hasConn a m = true <;> by_cases hb : hasConn b m = true <;>
    by_cases h0 : m = 0 <;> by_cases hc : m < cmpCutoff a b <;>
      (try simp_all [matchGeneCond, disjointTest, pyOr, pyTruthy]) <;>
      exact (if_neg (by omega)).symm

/-! ## Membership characterizations of the three gene classes -/

theorem mem_matchingGenes_iff (a b : Dna) (hwa : a.wf) (hwb : b.wf) (n : Nat) :
    n ∈ matchingGenes a b
      ↔ (n ≠ 0 ∧ hasConn a n = true ∧ hasConn b n = true) := by
  unfold matchingGenes
  simp only [List.mem_filterMap, List.mem_range]
  constructor
  · rintro ⟨m, _, hf⟩
    rw [match_branch a b hwa hwb] at hf
    by_cases hcond : m ≠ 0 ∧ hasConn a m = true ∧ hasConn b m = true
    · rw [if_pos hcond] at hf
      cases hf
      exact hcond
    · rw [if_neg hcond] at hf
      cases hf
  · intro hcond
    refine ⟨n, ?_, ?_⟩
    · have := hasConn_le_max a n hcond.2.1
      have hle : dnaMaxInnov a ≤ cmpMaxNumber a b := Nat.le_max_left _ _
      omega
    · rw [match_branch a b hwa hwb, if_pos hcond]

theorem mem_disjointGenes_iff (a b : Dna) (hwa : a.wf) (hwb : b.wf) (n : Nat) :
    n ∈ disjointGenes a b
      ↔ (n ≠ 0 ∧ hasConn a n ≠ hasConn b n ∧ n < cmpCutoff a b) := by
  unfold disjointGenes
  simp only [List.mem_filterMap, List.mem_range]
  constructor
  · rintro ⟨m, _, hf⟩
    rw [disjoint_branch a b hwa hwb] at hf
    by_cases hcond : m ≠ 0 ∧ hasConn a m ≠ hasConn b m ∧ m < cmpCutoff a b
    · rw [if_pos hcond] at hf
      cases hf
      exact hcond
    · rw [if_neg hcond] at hf
      cases hf
  · intro hcond
    refine ⟨n, ?_, ?_⟩
    · have hor : hasConn a n = true ∨ hasConn b n = true := by
        rcases hb : hasConn b n <;> rcases ha : hasConn a n <;>
          simp_all
      have hle : n ≤ cmpMaxNumber a b := by
        rcases hor with h | h
        · exact le_trans (hasConn_le_max a n h) (Nat.le_max_left _ _)
        · exact le_trans (hasConn_le_max b n h) (Nat.le_max_right _ _)
      omega
    · rw [disjoint_branch a b hwa hwb, if_pos hcond]

theorem mem_excessGenes_iff (a b : Dna) (hwa : a.wf) (hwb : b.wf) (n : Nat) :
    n ∈ excessGenes a b
      ↔ (n ≠ 0 ∧ hasConn a n ≠ hasConn b n ∧ cmpCutoff a b ≤ n) := by
  unfold excessGenes
  simp only [List.mem_filterMap, List.mem_range]
  constructor
  · rintro ⟨m, _, hf⟩
    rw [excess_branch a b hwa hwb] at hf
    by_cases hcond : m ≠ 0 ∧ hasConn a m ≠ hasConn b m ∧ cmpCutoff a b ≤ m
    · rw [if_pos hcond] at hf
      cases hf
      exact hcond
    · rw [if_neg hcond] at hf
      cases hf
  · intro hcond
    refine ⟨n, ?_, ?_⟩
    · have hor : hasConn a n = true ∨ hasConn b n = true := by
        rcases hb : hasConn b n <;> rcases ha : hasConn a n <;>
          simp_all
      have hle : n ≤ cmpMaxNumber a b := by
        rcases hor with h | h
        · exact le_trans (hasConn_le_max a n h) (Nat.le_max_left _ _)
        · exact le_trans (hasConn_le_max b n h) (Nat.le_max_right _ _)
      omega
    · rw [excess_branch a b hwa hwb, if_pos hcond]

instance (d : Dna) : Decidable d.wf :=
  inferInstanceAs (Decidable (∀ p ∈ d.connections, p.1 = p.2.number))

/-! ## Claim C2 (amended) -/

/-- C2 (amended): the claimed classification holds for all genomes whose
innovation numbers are all at least 1 (genes numbered 0 are silently
dropped from every class by Python truthiness — see the counterexample):
a gene present in both genomes is matching; a gene present in exactly one
genome is disjoint if its number is strictly below the cutoff and excess
otherwise; and every gene present in either genome lands in exactly one of
the three classes. -/
theorem compare_genomes_classification (a b : Dna) (hwa : a.wf) (hwb : b.wf)
    (hka : ∀ p ∈ a.connections, 1 ≤ p.1) (hkb : ∀ p ∈ b.connections, 1 ≤ p.1)
    (hea : a.connections ≠ []) (heb : b.connections ≠ []) :
    ∃ r, compareGenomes a b = some r
      ∧ ∀ n,
        ((hasConn a n = true ∧ hasConn b n = true) →
          (n ∈ r.matching ∧ n ∉ r.disjoint ∧ n ∉ r.excess))
        ∧ ((hasConn a n ≠ hasConn b n ∧ n < cmpCutoff a b) →
          (n ∈ r.disjoint ∧ n ∉ r.matching ∧ n ∉ r.excess))
        ∧ ((hasConn a n ≠ hasConn b n ∧ cmpCutoff a b ≤ n) →
          (n ∈ r.excess ∧ n ∉ r.matching ∧ n ∉ r.disjoint))
        ∧ ((hasConn a n = true ∨ hasConn b n = true) →
          (n ∈ r.matching ∨ n ∈ r.disjoint ∨ n ∈ r.excess)) := by
  have hcond : (a.connections.isEmpty || b.connections.isEmpty) = false := by
    simp [List.isEmpty_iff, hea, heb]
  refine ⟨⟨matchingGenes a b, disjointGenes a b, excessGenes a b, cmpMaxNumber a b⟩,
    by simp [compareGenomes, hcond], ?_⟩
  intro n
  have hM := mem_matchingGenes_iff a b hwa hwb n
  have hD := mem_disjointGenes_iff a b hwa hwb n
  have hE := mem_excessGenes_iff a b hwa hwb n
  refine ⟨?_, ?_, ?_, ?_⟩
  · rintro ⟨h1, h2⟩
    have h0 : n ≠ 0 := hasConn_pos a hka n h1
    refine ⟨hM.mpr ⟨h0, h1, h2⟩, ?_, ?_⟩
    · intro hmem
      have := (hD.mp hmem).2.1
      simp [h1, h2] at this
    · intro hmem
      have := (hE.mp hmem).2.1
      simp [h1, h2] at this
  · rintro ⟨hne, hlt⟩
    have h1 : hasConn a n = true ∨ hasConn b n = true := by
      rcases ha : hasConn a n <;> rcases hb : hasConn b n <;> simp_all
    have h0 : n ≠ 0 := by
      rcases h1 with h | h
      exacts [hasConn_pos a hka n h, hasConn_pos b hkb n h]
    refine ⟨hD.mpr ⟨h0, hne, hlt⟩, ?_, ?_⟩
    · intro hmem
      have := (hM.mp hmem)
      exact hne (by rw [this.2.1, this.2.2])
    · intro hmem
      have := (hE.mp hmem).2.2
      omega
  · rintro ⟨hne, hge⟩
    have h1 : hasConn a n = true ∨ hasConn b n = true := by
      rcases ha : hasConn a n <;> rcases hb : hasConn b n <;> simp_all
    have h0 : n ≠ 0 := by
      rcases h1 with h | h
      exacts [hasConn_pos a hka n h, hasConn_pos b hkb n h]
    refine ⟨hE.mpr ⟨h0, hne, hge⟩, ?_, ?_⟩
    · intro hmem
      have := (hM.mp hmem)
      exact hne (by rw [this.2.1, this.2.2])
    · intro hmem
      have := (hD.mp hmem).2.2
      omega
  · intro hor
    have h0 : n ≠ 0 := by
      rcases hor with h | h
      exacts [hasConn_pos a hka n h, hasConn_pos b hkb n h]
    by_cases hboth : hasConn a n = true ∧ hasConn b n = true
    · exact Or.inl (hM.mpr ⟨h0, hboth⟩)
    · have hne : hasConn a n ≠ hasConn b n := by
        rcases ha : hasConn a n <;> rcases hb : hasConn b n <;> simp_all
      by_cases hlt : n < cmpCutoff a b
      · exact Or.inr (Or.inl (hD.mpr ⟨h0, hne, hlt⟩))
      · exact Or.inr (Or.inr (hE.mpr ⟨h0, hne, by omega⟩))

/-- Genome with connection genes 1, 2, 5 (max innovation 5). -/
def dnaA : Dna :=
  ⟨none, none, [],
    [(1, ⟨1, 0, 1, 1, true⟩), (2, ⟨2, 0, 1, 1/2, true⟩), (5, ⟨5, 0, 1, 1, true⟩)]⟩

/-- Genome with connection genes 1, 3 (max innovation 3). -/
def dnaB : Dna :=
  ⟨none, none, [],
    [(1, ⟨1, 0, 1, 2, true⟩), (3, ⟨3, 0, 1, 1, true⟩)]⟩

/-- C2 amended witness: the classification theorem instantiated at two
concrete genomes with matching, disjoint and excess genes (gene 1 matches,
gene 2 is disjoint, genes 3 and 5 are excess; cutoff 3, range 0..5). -/
theorem compare_genomes_classification_witness :
    ∃ r, compareGenomes dnaA dnaB = some r
      ∧ ∀ n,
        ((hasConn dnaA n = true ∧ hasConn dnaB n = true) →
          (n ∈ r.matching ∧ n ∉ r.disjoint ∧ n ∉ r.excess))
        ∧ ((hasConn dnaA n ≠ hasConn dnaB n ∧ n < cmpCutoff dnaA dnaB) →
          (n ∈ r.disjoint ∧ n ∉ r.matching ∧ n ∉ r.excess))
        ∧ ((hasConn dnaA n ≠ hasConn dnaB n ∧ cmpCutoff dnaA dnaB ≤ n) →
          (n ∈ r.excess ∧ n ∉ r.matching ∧ n ∉ r.disjoint))
        ∧ ((hasConn dnaA n = true ∨ hasConn dnaB n = true) →
          (n ∈ r.matching ∨ n ∈ r.disjoint ∨ n ∈ r.excess)) :=
  compare_genomes_classification dnaA dnaB (by decide) (by decide)
    (by decide) (by decide) (by decide) (by decide)

/-! ## Claim C4: symmetry of the genetic distance -/

theorem cmpMaxNumber_comm (a b : Dna) : cmpMaxNumber a b = cmpMaxNumber b a := by
  unfold cmpMaxNumber
  exact Nat.max_comm _ _

theorem cmpCutoff_comm (a b : Dna) : cmpCutoff a b = cmpCutoff b a := by
  unfold cmpCutoff
  exact Nat.min_comm _ _

theorem matchingGenes_symm (a b : Dna) (hwa : a.wf) (hwb : b.wf) :
    matchingGenes a b = matchingGenes b a := by
  unfold matchingGenes
  rw [cmpMaxNumber_comm]
  apply List.filterMap_congr
  intro m _
  rw [match_branch a b hwa hwb m, match_branch b a hwb hwa m]
  by_cases h : m ≠ 0 ∧ hasConn a m = true ∧ hasConn b m = true
  · rw [if_pos h, if_pos ⟨h.1, h.2.2, h.2.1⟩]
  · rw [if_neg h, if_neg (fun hc => h ⟨hc.1, hc.2.2, hc.2.1⟩)]

theorem disjointGenes_symm (a b : Dna) (hwa : a.wf) (hwb : b.wf) :
    disjointGenes a b = disjointGenes b a := by
  unfold disjointGenes
  rw [cmpMaxNumber_comm]
  apply List.filterMap_congr
  intro m _
  rw [disjoint_branch a b hwa hwb m, disjoint_branch b a hwb hwa m, cmpCutoff_comm]
  by_cases h : m ≠ 0 ∧ hasConn a m ≠ hasConn b m ∧ m < cmpCutoff b a
  · rw [if_pos h, if_pos ⟨h.1, h.2.1.symm, h.2.2⟩]
  · rw [if_neg h, if_neg (fun hc => h ⟨hc.1, hc.2.1.symm, hc.2.2⟩)]

theorem excessGenes_symm (a b : Dna) (hwa : a.wf) (hwb : b.wf) :
    excessGenes a b = excessGenes b a := by
  unfold excessGenes
  rw [cmpMaxNumber_comm]
  apply List.filterMap_congr
  intro m _
  rw [excess_branch a b hwa hwb m, excess_branch b a hwb hwa m, cmpCutoff_comm]
  by_cases h : m ≠ 0 ∧ hasConn a m ≠ hasConn b m ∧ cmpCutoff b a ≤ m
  · rw [if_pos h, if_pos ⟨h.1, h.2.1.symm, h.2.2⟩]
  · rw [if_neg h, if_neg (fun hc => h ⟨hc.1, hc.2.1.symm, hc.2.2⟩)]

theorem compareGenomes_symm (a b : Dna) (hwa : a.wf) (hwb : b.wf) :
    compareGenomes a b = compareGenomes b a := by
  unfold compareGenomes
  rw [Bool.or_comm]
  by_cases h : (b.connections.isEmpty || a.connections.isEmpty) = true
  · rw [if_pos h, if_pos h]
  · rw [if_neg h, if_neg h, matchingGenes_symm a b hwa hwb,
      disjointGenes_symm a b hwa hwb, excessGenes_symm a b hwa hwb,
      cmpMaxNumber_comm]

/-- C4: genetic distance is symmetric on well-formed genomes (each
connection stored under its own innovation number, as the program always
builds them): the comparison lists coincide and the matching-gene weight
deltas satisfy `|wA − wB| = |wB − wA|`. -/
theorem genetic_distance_symmetric (c1 c2 c3 : ℚ) (a b : Dna)
    (hwa : a.wf) (hwb : b.wf) :
    geneticDistance c1 c2 c3 a b = geneticDistance c1 c2 c3 b a := by
  unfold geneticDistance
  rw [compareGenomes_symm a b hwa hwb]
  cases h : compareGenomes b a with
  | none => rfl
  | some r =>
    simp only [Option.map_some']
    have hdelta :
        (r.matching.map fun number => |connWeightAt a number - connWeightAt b number|)
          = r.matching.map fun number => |connWeightAt b number - connWeightAt a number| :=
      List.map_congr_left (fun x _ => abs_sub_comm _ _)
    rw [hdelta]

/-- C4 witness: symmetry at two concrete genomes with one connection each
(both genomes non-empty, per the claim's hypothesis). -/
theorem genetic_distance_symmetric_witness :
    geneticDistance 1 2 3 dnaA dnaB = geneticDistance 1 2 3 dnaB dnaA :=
  genetic_distance_symmetric 1 2 3 dnaA dnaB (by decide) (by decide)

/-! ## simulation.py: crossover (lines 340-388) -/

/-- `fit_parent` at lines 347-348: `some true` stands for `parent_a`,
`some false` for `parent_b`, `none` for a fitness tie. -/
def fitParentOf (pa pb : Creature) : Option Bool :=
  if pa.fitness > pb.fitness then some true
  else if pa.fitness < pb.fitness then some false
  else none

/-- Loop body at lines 379-384 building `child_connections`:
`child_connections[number] = parent.dna.connections[number]` (the lookup
cannot fail for well-formed parents; `getD` totalizes the `KeyError`). -/
def childConnStep (pa pb : Creature) (conns : List (Nat × Connection))
    (p : Nat × Bool) : List (Nat × Connection) :=
  dinsert conns p.1
    ((dictGet (if p.2 then pa.dna else pb.dna).connections p.1).getD defaultConnection)

/-- Loop body at lines 379-384 building `child_nodes`:
`child_nodes[src_number] = parent.dna.nodes[src_number]` and likewise for
`dst_number`. -/
def childNodeStep (pa pb : Creature) (nodes : List (Nat × PyNode))
    (p : Nat × Bool) : List (Nat × PyNode) :=
  let parentDna := if p.2 then pa.dna else pb.dna
  let c := (dictGet parentDna.connections p.1).getD defaultConnection
  dinsert
    (dinsert nodes c.src_number ((dictGet parentDna.nodes c.src_number).getD defaultNode))
    c.dst_number ((dictGet parentDna.nodes c.dst_number).getD defaultNode)

/-- `child_gene_sources` of `Simulation.crossover` (lines 353-374): gene
number ↦ parent to inherit from (`true` = `parent_a`).  First every
matching gene draws a coin; then, with a strictly fitter parent, every
non-matching gene it carries maps to it (lines 363-366); on a fitness tie
each non-matching gene goes to `parent_a` on a successful coin when it
carries the gene, else to `parent_b` when it carries it (lines 369-374).
The random draws are modelled as functions of the gene's innovation
number: `coinM` for the matching loop, `coinN` for the tie branch. -/
def crossoverSources (coinM coinN : Nat → Bool) (pa pb : Creature)
    (r : CompareResult) : List (Nat × Bool) :=
  let nonMatching := r.disjoint ++ r.excess
  let sources1 : List (Nat × Bool) :=
    r.matching.foldl (fun acc number => dinsert acc number (coinM number)) []
  match fitParentOf pa pb with
  | some fp =>
    nonMatching.foldl (fun acc number =>
      if (dictGet (if fp then pa.dna else pb.dna).connections number).isSome
      then dinsert acc number fp else acc) sources1
  | none =>
    nonMatching.foldl (fun acc number =>
      if coinN number && (dictGet pa.dna.connections number).isSome
      then dinsert acc number true
      else if (dictGet pb.dna.connections number).isSome
      then dinsert acc number false
      else acc) sources1

/-- Lines 377-388 of `Simulation.crossover`: build `child_connections` and
`child_nodes` from the chosen gene sources, then construct the child `Dna`
with explicit node/connection dicts (`inputs`/`outputs` left at `None`). -/
def crossoverChild (coinM coinN : Nat → Bool) (pa pb : Creature)
    (r : CompareResult) : Dna :=
  let childMaps :=
    (crossoverSources coinM coinN pa pb r).foldl
      (fun acc p => (childConnStep pa pb acc.1 p, childNodeStep pa pb acc.2 p))
      ([], [])
  dnaInit none none childMaps.2 childMaps.1

/-- `Simulation.crossover`: compare the parents' genomes, then build the
child from the comparison (the Empty-Genome failure of `compare_genomes`
propagates). -/
def crossover (coinM coinN : Nat → Bool) (pa pb : Creature) : Option Dna :=
  (compareGenomes pa.dna pb.dna).map (crossoverChild coinM coinN pa pb)

/-! ## Dictionary-insertion lemmas for the crossover proof -/

theorem dictGet_dinsert (l : List (Nat × α)) (k : Nat) (v : α) (n : Nat) :
    dictGet (dinsert l k v) n = if n = k then some v else dictGet l n := by
  induction l with
  | nil =>
    rw [dinsert]
    by_cases h : n = k
    · simp [dictGet, h]
    · simp [dictGet, h, show ¬k = n from fun hh => h hh.symm]
  | cons p rest ih =>
    rw [dinsert]
    by_cases hp : p.1 = k <;> by_cases h : n = k <;> by_cases hpn : p.1 = n <;>
      simp_all [dictGet, eq_comm]

def keysNodup (l : List (Nat × α)) : Prop := (l.map Prod.fst).Nodup

theorem mem_keys_dinsert (l : List (Nat × α)) (k : Nat) (v : α) (x : Nat) :
    x ∈ (dinsert l k v).map Prod.fst ↔ (x ∈ l.map Prod.fst ∨ x = k) := by
  induction l with
  | nil => simp [dinsert]
  | cons p rest ih =>
    rw [dinsert]
    by_cases hp : p.1 = k <;> simp [hp, ih] <;> tauto

theorem keysNodup_dinsert (l : List (Nat × α)) (k : Nat) (v : α)
    (h : keysNodup l) : keysNodup (dinsert l k v) := by
  induction l with
  | nil => simp [dinsert, keysNodup]
  | cons p rest ih =>
    rw [keysNodup, List.map_cons, List.nodup_cons] at h
    rw [dinsert]
    by_cases hp : p.1 = k
    · rw [if_pos hp, keysNodup, List.map_cons, List.nodup_cons]
      exact ⟨hp ▸ h.1, h.2⟩
    · rw [if_neg hp, keysNodup, List.map_cons, List.nodup_cons]
      refine ⟨?_, ih h.2⟩
      rw [mem_keys_dinsert]
      rintro (hmem | hk)
      · exact h.1 hmem
      · exact hp hk

theorem keysNodup_nil : keysNodup ([] : List (Nat × α)) := by
  simp [keysNodup]

theorem dictGet_foldl_dinsert_fn (v : Nat → β) :
    ∀ (L : List Nat) (acc : List (Nat × β)) (n : Nat),
      dictGet (L.foldl (fun a x => dinsert a x (v x)) acc) n
        = if n ∈ L then some (v n) else dictGet acc n := by
  intro L
  induction L with
  | nil => simp
  | cons x L ih =>
    intro acc n
    rw [List.foldl_cons, ih]
    by_cases hL : n ∈ L
    · simp [hL]
    · by_cases hx : n = x
      · simp [hL, hx, dictGet_dinsert]
      · simp [hL, hx, dictGet_dinsert]

theorem dictGet_foldl_dinsert_if (P : Nat → Bool) (v : β) :
    ∀ (L : List Nat) (acc : List (Nat × β)) (n : Nat),
      dictGet (L.foldl (fun a x => if P x then dinsert a x v else a) acc) n
        = if n ∈ L ∧ P n = true then some v else dictGet acc n := by
  intro L
  induction L with
  | nil => simp
  | cons x L ih =>
    intro acc n
    rw [List.foldl_cons, ih]
    by_cases hL : n ∈ L ∧ P n = true
    · simp [hL, List.mem_cons.mpr (Or.inr hL.1), hL.2]
    · by_cases hx : n = x
      · subst hx
        by_cases hP : P n = true
        · simp [hL, hP, dictGet_dinsert]
        · simp [hL, hP, Bool.of_not_eq_true hP]
      · by_cases hP : P x = true <;>
          simp [hL, hx, hP, dictGet_dinsert]

theorem keysNodup_foldl_dinsert_fn (v : Nat → β) :
    ∀ (L : List Nat) (acc : List (Nat × β)),
      keysNodup acc → keysNodup (L.foldl (fun a x => dinsert a x (v x)) acc) := by
  intro L
  induction L with
  | nil => exact fun acc h => h
  | cons x L ih =>
    intro acc h
    exact ih _ (keysNodup_dinsert _ _ _ h)

theorem keysNodup_foldl_dinsert_if (P : Nat → Bool) (v : β) :
    ∀ (L : List Nat) (acc : List (Nat × β)),
      keysNodup acc →
        keysNodup (L.foldl (fun a x => if P x then dinsert a x v else a) acc) := by
  intro L
  induction L with
  | nil => exact fun acc h => h
  | cons x L ih =>
    intro acc h
    rw [List.foldl_cons]
    by_cases hP : P x = true
    · exact ih _ (by rw [if_pos hP]; exact keysNodup_dinsert _ _ _ h)
    · exact ih _ (by rw [if_neg hP]; exact h)

theorem dictGet_eq_none_of_not_mem_keys (l : List (Nat × α)) (n : Nat)
    (h : n ∉ l.map Prod.fst) : dictGet l n = none := by
  induction l with
  | nil => rfl
  | cons p rest ih =>
    rw [List.map_cons] at h
    rw [dictGet, if_neg (fun hp => h (List.mem_cons.mpr (Or.inl hp.symm)))]
    exact ih (fun hm => h (List.mem_cons.mpr (Or.inr hm)))

theorem dictGet_foldl_childConn (pa pb : Creature) :
    ∀ (L : List (Nat × Bool)), keysNodup L →
      ∀ (acc : List (Nat × Connection)) (n : Nat),
        dictGet (L.foldl (childConnStep pa pb) acc) n
          = match dictGet L n with
            | some fl =>
              some ((dictGet (if fl then pa.dna else pb.dna).connections n).getD
                defaultConnection)
            | none => dictGet acc n := by
  intro L
  induction L with
  | nil =>
    intro _ acc n
    simp [dictGet]
  | cons p L ih =>
    intro hnd acc n
    rw [keysNodup, List.map_cons, List.nodup_cons] at hnd
    rw [List.foldl_cons, ih hnd.2]
    by_cases hpn : p.1 = n
    · have hnL : n ∉ L.map Prod.fst := fun h => hnd.1 (hpn ▸ h)
      have hG : dictGet L n = none := dictGet_eq_none_of_not_mem_keys L n hnL
      have hG2 : dictGet (p :: L) n = some p.2 := by rw [dictGet, if_pos hpn]
      rw [hG, hG2]
      simp [childConnStep, dictGet_dinsert, hpn]
    · have hG2 : dictGet (p :: L) n = dictGet L n := by rw [dictGet, if_neg hpn]
      rw [hG2]
      cases hG : dictGet L n with
      | some fl => rfl
      | none =>
        simp [childConnStep, dictGet_dinsert,
          show ¬n = p.1 from fun h => hpn h.symm]

theorem foldl_prod_fst {α β γ : Type _} (s1 : α → γ → α) (s2 : β → γ → β) :
    ∀ (L : List γ) (acc : α × β),
      (L.foldl (fun ac p => (s1 ac.1 p, s2 ac.2 p)) acc).1 = L.foldl s1 acc.1 := by
  intro L
  induction L with
  | nil => intro acc; rfl
  | cons x L ih =>
    intro acc
    rw [List.foldl_cons, List.foldl_cons, ih]

/-! ## Claim C5: disjoint/excess inheritance from the fitter parent -/

/-- C5: when one parent is strictly fitter, every disjoint or excess gene
of the crossover child coincides with the fitter parent's gene at that
innovation number — in particular a non-matching gene carried only by the
less-fit parent is absent from the child, and an inherited non-matching
gene carries the fitter parent's connection record. -/
theorem crossover_nonmatching_from_fitter (coinM coinN : Nat → Bool)
    (pa pb : Creature) (hwa : pa.dna.wf) (hwb : pb.dna.wf)
    (hea : pa.dna.connections ≠ []) (heb : pb.dna.connections ≠ [])
    (hfit : pa.fitness ≠ pb.fitness) :
    ∃ r, compareGenomes pa.dna pb.dna = some r
      ∧ crossover coinM coinN pa pb = some (crossoverChild coinM coinN pa pb r)
      ∧ ∀ n ∈ r.disjoint ++ r.excess,
          dictGet (crossoverChild coinM coinN pa pb r).connections n
            = dictGet (if pb.fitness < pa.fitness then pa.dna
                else pb.dna).connections n := by
  have hcond : (pa.dna.connections.isEmpty || pb.dna.connections.isEmpty) = false := by
    simp [List.isEmpty_iff, hea, heb]
  have hcmp : compareGenomes pa.dna pb.dna
      = some ⟨matchingGenes pa.dna pb.dna, disjointGenes pa.dna pb.dna,
          excessGenes pa.dna pb.dna, cmpMaxNumber pa.dna pb.dna⟩ := by
    simp [compareGenomes, hcond]
  obtain ⟨fp, hfp, hfd⟩ :
      ∃ fp : Bool, fitParentOf pa pb = some fp
        ∧ (if fp then pa.dna else pb.dna)
            = (if pb.fitness < pa.fitness then pa.dna else pb.dna) := by
    rcases lt_trichotomy pa.fitness pb.fitness with h | h | h
    · refine ⟨false, ?_, ?_⟩
      · rw [fitParentOf, if_neg (lt_asymm h), if_pos h]
      · simp [lt_asymm h]
    · exact absurd h hfit
    · refine ⟨true, ?_, ?_⟩
      · rw [fitParentOf, if_pos h]
      · simp [h]
  refine ⟨⟨matchingGenes pa.dna pb.dna, disjointGenes pa.dna pb.dna,
    excessGenes pa.dna pb.dna, cmpMaxNumber pa.dna pb.dna⟩, hcmp, ?_, ?_⟩
  · unfold crossover
    rw [hcmp, Option.map_some']
  · intro n hn
    have hnm : n ∉ matchingGenes pa.dna pb.dna := by
      intro hmem
      have hm := (mem_matchingGenes_iff pa.dna pb.dna hwa hwb n).mp hmem
      rcases List.mem_append.mp hn with h | h
      · have hd := (mem_disjointGenes_iff pa.dna pb.dna hwa hwb n).mp h
        rw [hm.2.1, hm.2.2] at hd
        exact hd.2.1 rfl
      · have hx := (mem_excessGenes_iff pa.dna pb.dna hwa hwb n).mp h
        rw [hm.2.1, hm.2.2] at hx
        exact hx.2.1 rfl
    have hsrc : crossoverSources coinM coinN pa pb
        ⟨matchingGenes pa.dna pb.dna, disjointGenes pa.dna pb.dna,
          excessGenes pa.dna pb.dna, cmpMaxNumber pa.dna pb.dna⟩
        = (disjointGenes pa.dna pb.dna ++ excessGenes pa.dna pb.dna).foldl
            (fun acc number =>
              if (dictGet (if fp then pa.dna else pb.dna).connections number).isSome
              then dinsert acc number fp else acc)
            ((matchingGenes pa.dna pb.dna).foldl
              (fun acc number => dinsert acc number (coinM number)) []) := by
      unfold crossoverSources
      rw [hfp]
    have hs1nodup : keysNodup ((matchingGenes pa.dna pb.dna).foldl
        (fun acc number => dinsert acc number (coinM number)) ([] : List (Nat × Bool))) :=
      keysNodup_foldl_dinsert_fn coinM _ _ keysNodup_nil
    have hs2nodup : keysNodup (crossoverSources coinM coinN pa pb
        ⟨matchingGenes pa.dna pb.dna, disjointGenes pa.dna pb.dna,
          excessGenes pa.dna pb.dna, cmpMaxNumber pa.dna pb.dna⟩) := by
      rw [hsrc]
      exact keysNodup_foldl_dinsert_if _ fp _ _ hs1nodup
    have hs1get : dictGet ((matchingGenes pa.dna pb.dna).foldl
        (fun acc number => dinsert acc number (coinM number)) ([] : List (Nat × Bool))) n
        = none := by
      rw [dictGet_foldl_dinsert_fn coinM _ _ n, if_neg]
      · rfl
      · exact hnm
    have hs2get : dictGet (crossoverSources coinM coinN pa pb
        ⟨matchingGenes pa.dna pb.dna, disjointGenes pa.dna pb.dna,
          excessGenes pa.dna pb.dna, cmpMaxNumber pa.dna pb.dna⟩) n
        = if (dictGet (if fp then pa.dna else pb.dna).connections n).isSome = true
          then some fp else none := by
      rw [hsrc, dictGet_foldl_dinsert_if _ fp _ _ n, hs1get]
      by_cases hP : (dictGet (if fp then pa.dna else pb.dna).connections n).isSome = true
      · rw [if_pos ⟨hn, hP⟩, if_pos hP]
      · rw [if_neg (fun hc => hP hc.2), if_neg hP]
    have hconn : (crossoverChild coinM coinN pa pb
        ⟨matchingGenes pa.dna pb.dna, disjointGenes pa.dna pb.dna,
          excessGenes pa.dna pb.dna, cmpMaxNumber pa.dna pb.dna⟩).connections
        = (crossoverSources coinM coinN pa pb
            ⟨matchingGenes pa.dna pb.dna, disjointGenes pa.dna pb.dna,
              excessGenes pa.dna pb.dna, cmpMaxNumber pa.dna pb.dna⟩).foldl
          (childConnStep pa pb) [] := by
      unfold crossoverChild
      rw [show (dnaInit none none _ _).connections = _ from rfl]
      exact foldl_prod_fst (childConnStep pa pb) (childNodeStep pa pb) _ ([], [])
    rw [hconn, dictGet_foldl_childConn pa pb _ hs2nodup [] n, hs2get, ← hfd]
    by_cases hP : (dictGet (if fp then pa.dna else pb.dna).connections n).isSome = true
    · rw [if_pos hP]
      obtain ⟨c, hc⟩ := Option.isSome_iff_exists.mp hP
      rw [hc]
      show some ((dictGet (if fp = true then pa.dna else pb.dna).connections n).getD
        defaultConnection) = some c
      rw [hc, Option.getD_some]
    · rw [if_neg hP]
      have := Option.not_isSome_iff_eq_none.mp (fun hs => hP (by simpa using hs))
      rw [this]
      rfl

/-- C5 witness: concrete parents — parent a (genes 1, 2, 5, fitness 2) is
strictly fitter than parent b (genes 1, 3, fitness 1); every non-matching
gene of the child agrees with parent a's connection dict. -/
theorem crossover_nonmatching_from_fitter_witness :
    ∃ r, compareGenomes (Creature.mk dnaA 2).dna (Creature.mk dnaB 1).dna = some r
      ∧ crossover (fun _ => true) (fun _ => false) ⟨dnaA, 2⟩ ⟨dnaB, 1⟩
          = some (crossoverChild (fun _ => true) (fun _ => false) ⟨dnaA, 2⟩ ⟨dnaB, 1⟩ r)
      ∧ ∀ n ∈ r.disjoint ++ r.excess,
          dictGet (crossoverChild (fun _ => true) (fun _ => false)
              ⟨dnaA, 2⟩ ⟨dnaB, 1⟩ r).connections n
            = dictGet (if (Creature.mk dnaB 1).fitness < (Creature.mk dnaA 2).fitness
                then (Creature.mk dnaA 2).dna else (Creature.mk dnaB 1).dna).connections n :=
  crossover_nonmatching_from_fitter (fun _ => true) (fun _ => false)
    ⟨dnaA, 2⟩ ⟨dnaB, 1⟩ (by decide) (by decide) (by decide) (by decide) (by decide)

/-! ## simulation.py: new_generation, culling (lines 549-552) -/

/-- Stable insertion into a fitness-ascending list: the new creature goes
after every creature of smaller-or-equal fitness. -/
def insertByFitness (c : Creature) : List Creature → List Creature
  | [] => [c]
  | x :: xs =>
    if x.fitness ≤ c.fitness then x :: insertByFitness c xs else c :: x :: xs

/-- Python `sorted(species, key=lambda c: c.fitness)`: a stable ascending
sort; inserting the elements left to right after their equals reproduces
exactly the list any stable sort (such as Python's Timsort) yields. -/
def pySorted (species : List Creature) : List Creature :=
  species.foldl (fun acc c => insertByFitness c acc) []

/-- Line 552: `sorted(species, key=lambda c: c.fitness)[int(len(species) *
BOTTOM_PERCENT):]` — keep the suffix after the `⌊len·bp⌋` lowest-fitness
members (`int()` truncates, and the product is nonnegative for a
nonnegative bottom percent, so truncation is the floor). -/
def cullSpecies (bp : ℚ) (species : List Creature) : List Creature :=
  (pySorted species).drop (Int.toNat ⌊(species.length : ℚ) * bp⌋)

theorem length_insertByFitness (c : Creature) (l : List Creature) :
    (insertByFitness c l).length = l.length + 1 := by
  induction l with
  | nil => rfl
  | cons x xs ih =>
    rw [insertByFitness]
    by_cases h : x.fitness ≤ c.fitness <;> simp [h, ih]

theorem length_pySorted (l : List Creature) : (pySorted l).length = l.length := by
  have aux : ∀ (xs : List Creature) (acc : List Creature),
      (xs.foldl (fun acc c => insertByFitness c acc) acc).length
        = acc.length + xs.length := by
    intro xs
    induction xs with
    | nil => intro acc; simp
    | cons x xs ih =>
      intro acc
      rw [List.foldl_cons, ih, length_insertByFitness, List.length_cons]
      omega
  rw [pySorted, aux, List.length_nil]
  omega

theorem mem_insertByFitness (c x : Creature) (l : List Creature) :
    x ∈ insertByFitness c l ↔ (x = c ∨ x ∈ l) := by
  induction l with
  | nil => simp [insertByFitness]
  | cons y ys ih =>
    rw [insertByFitness]
    by_cases h : y.fitness ≤ c.fitness
    · rw [if_pos h]
      simp [ih]
      tauto
    · rw [if_neg h]
      simp

theorem mem_pySorted (x : Creature) (l : List Creature) :
    x ∈ pySorted l ↔ x ∈ l := by
  have aux : ∀ (xs : List Creature) (acc : List Creature),
      (x ∈ xs.foldl (fun acc c => insertByFitness c acc) acc
        ↔ (x ∈ acc ∨ x ∈ xs)) := by
    intro xs
    induction xs with
    | nil => intro acc; simp
    | cons y ys ih =>
      intro acc
      rw [List.foldl_cons, ih, mem_insertByFitness]
      simp
      tauto
  rw [pySorted, aux]
  simp

theorem pairwise_insertByFitness (c : Creature) (l : List Creature)
    (h : l.Pairwise (fun u v => u.fitness ≤ v.fitness)) :
    (insertByFitness c l).Pairwise (fun u v => u.fitness ≤ v.fitness) := by
  induction l with
  | nil => simp [insertByFitness]
  | cons x xs ih =>
    rw [List.pairwise_cons] at h
    rw [insertByFitness]
    by_cases hx : x.fitness ≤ c.fitness
    · rw [if_pos hx, List.pairwise_cons]
      refine ⟨?_, ih h.2⟩
      intro y hy
      rcases (mem_insertByFitness c y xs).mp hy with rfl | hmem
      · exact hx
      · exact h.1 y hmem
    · rw [if_neg hx, List.pairwise_cons]
      have hcx : c.fitness ≤ x.fitness := le_of_not_le hx
      refine ⟨?_, by rw [List.pairwise_cons]; exact h⟩
      intro y hy
      rcases List.mem_cons.mp hy with rfl | hmem
      · exact hcx
      · exact le_trans hcx (h.1 y hmem)

theorem pairwise_pySorted (l : List Creature) :
    (pySorted l).Pairwise (fun u v => u.fitness ≤ v.fitness) := by
  have aux : ∀ (xs : List Creature) (acc : List Creature),
      acc.Pairwise (fun u v => u.fitness ≤ v.fitness) →
        (xs.foldl (fun acc c => insertByFitness c acc) acc).Pairwise
          (fun u v => u.fitness ≤ v.fitness) := by
    intro xs
    induction xs with
    | nil => exact fun acc h => h
    | cons y ys ih =>
      intro acc h
      rw [List.foldl_cons]
      exact ih _ (pairwise_insertByFitness y acc h)
  exact aux l [] (by simp)

/-- A creature with empty genome and the given fitness, for concrete
selection scenarios. -/
def creOf (q : ℚ) : Creature := ⟨⟨none, none, [], []⟩, q⟩

/-! ## Claim C6 -/

/-- C6 counterexample: with bottom-percent literally 33% (0.33) and a
species of 3 creatures with fitness 1 < 2 < 3, the cull index is
`int(3 · 0.33) = int(0.99) = 0`, so NO member is removed — not 1 as the
claim states. -/
theorem cull_33_percent_removes_nobody :
    cullSpecies (33/100) [creOf 1, creOf 2, creOf 3]
      = [creOf 1, creOf 2, creOf 3] := by
  have hdrop :
      Int.toNat ⌊(([creOf 1, creOf 2, creOf 3].length : ℚ)) * (33/100)⌋ = 0 := by
    norm_num
  rw [cullSpecies, hdrop, List.drop_zero]
  decide

/-- C6 (amended): the culling step keeps
`sorted(species)[int(len·bp):]`, i.e. removes the `⌊len·bp⌋`
lowest-fitness members of each species.  With bottom-percent exactly one
third (1/3) — not the claim's literal 33%, for which `int(3·0.33) = 0`
removes nobody — a species of 3 loses exactly its single lowest-fitness
member and a species of 1 loses nobody. -/
theorem cull_scenario (s3 s1 : List Creature)
    (h3 : s3.length = 3) (h1 : s1.length = 1) :
    (cullSpecies (1/3) s3).length = 2
    ∧ (∃ removed, pySorted s3 = removed :: cullSpecies (1/3) s3
        ∧ ∀ x ∈ s3, removed.fitness ≤ x.fitness)
    ∧ cullSpecies (1/3) s1 = pySorted s1
    ∧ (cullSpecies (1/3) s1).length = 1 := by
  have hdrop3 : Int.toNat ⌊((s3.length : ℚ)) * (1/3)⌋ = 1 := by
    rw [h3]
    norm_num
  have hdrop1 : Int.toNat ⌊((s1.length : ℚ)) * (1/3)⌋ = 0 := by
    rw [h1]
    norm_num
  have hlen3 : (pySorted s3).length = 3 := by rw [length_pySorted, h3]
  refine ⟨?_, ?_, ?_, ?_⟩
  · rw [cullSpecies, hdrop3, List.length_drop, hlen3]
  · cases hps : pySorted s3 with
    | nil => rw [hps] at hlen3; simp at hlen3
    | cons removed rest =>
      refine ⟨removed, ?_, ?_⟩
      · rw [cullSpecies, hdrop3, hps, List.drop_one, List.tail_cons]
      · intro x hx
        have hmem : x ∈ pySorted s3 := (mem_pySorted x s3).mpr hx
        rw [hps] at hmem
        have hpw := pairwise_pySorted s3
        rw [hps, List.pairwise_cons] at hpw
        rcases List.mem_cons.mp hmem with rfl | hmem'
        · exact le_refl _
        · exact hpw.1 x hmem'
  · rw [cullSpecies, hdrop1, List.drop_zero]
  · rw [cullSpecies, hdrop1, List.drop_zero, length_pySorted, h1]

/-- C6 amended witness: the scenario at concrete species of sizes 3
and 1. -/
theorem cull_scenario_witness :
    (cullSpecies (1/3) [creOf 2, creOf 1, creOf 3]).length = 2
    ∧ (∃ removed, pySorted [creOf 2, creOf 1, creOf 3]
          = removed :: cullSpecies (1/3) [creOf 2, creOf 1, creOf 3]
        ∧ ∀ x ∈ [creOf 2, creOf 1, creOf 3], removed.fitness ≤ x.fitness)
    ∧ cullSpecies (1/3) [creOf 5] = pySorted [creOf 5]
    ∧ (cullSpecies (1/3) [creOf 5]).length = 1 :=
  cull_scenario [creOf 2, creOf 1, creOf 3] [creOf 5] (by decide) (by decide)
